import Mathlib

/-!
Verification of the rvalue synthesis rule of the liquid-rust refinement
type checker, and of the annotation AST of its parser.

The rule `Rvalue.synth` below is a direct translation of
`src/liquid-rust-tycheck/src/synth/rvalue.rs`; `AstVariable` models the
`Variable` struct of `src/liquid-rust-parser/src/ast.rs`.  The supporting
types (`BaseTy`, `Predicate`, `Ty`, `Env`, operands) live in crates that
are not part of the two source files, so they are modelled from the
specification, as marked on each definition.
-/

namespace LiquidRust

/-- Modelled from the spec: the signedness of an integer base type
(`liquid_rust_common::ty` is not in the sources). -/
inductive Sign where
  | Signed
  | Unsigned
deriving DecidableEq

/-- Modelled from the spec: the width of an integer base type
(`liquid_rust_common::ty::IntSize` is not in the sources). -/
inductive IntSize where
  | S8
  | S16
  | S32
  | S64
  | S128
deriving DecidableEq

/-- Modelled from the spec: `BaseTy` is `Bool` or `Int(signedness, width)`,
with structural equality in which width and signedness are significant. -/
inductive BaseTy where
  | Bool
  | Int (sign : Sign) (size : IntSize)
deriving DecidableEq

/-- Modelled from the spec: unary operator tags.  `Neg` is itself
parameterized by sign and size; `Not` is boolean negation. -/
inductive UnOp where
  | Neg (sign : Sign) (size : IntSize)
  | Not
deriving DecidableEq

/-- Modelled from the spec: binary operator tags, as matched in the
`BinApp` arm of the rvalue rule.  Arithmetic, ordering and shift-free
comparison tags carry their sign and size; equality tags carry the shared
operand base type; `And` and `Or` exist only for reuse inside predicates. -/
inductive BinOp where
  | Add (sign : Sign) (size : IntSize)
  | Sub (sign : Sign) (size : IntSize)
  | Mul (sign : Sign) (size : IntSize)
  | Div (sign : Sign) (size : IntSize)
  | Rem (sign : Sign) (size : IntSize)
  | And
  | Or
  | Eq (ty : BaseTy)
  | Neq (ty : BaseTy)
  | Lt (sign : Sign) (size : IntSize)
  | Gt (sign : Sign) (size : IntSize)
  | Lte (sign : Sign) (size : IntSize)
  | Gte (sign : Sign) (size : IntSize)
deriving DecidableEq

/-- Modelled from the spec: a `Literal` is a constant value of a base type,
an integer of a given signedness and width or a boolean. -/
inductive Literal where
  | int (val : Int) (sign : Sign) (size : IntSize)
  | bool (b : Bool)
deriving DecidableEq

/-- The base type of a literal, as carried by the literal itself. -/
def Literal.baseTy : Literal → BaseTy
  | .int _ sign size => .Int sign size
  | .bool _ => .Bool

/-- Modelled from the spec: an engine-level variable
(`liquid_rust_ty::Variable` is not in the sources): either the reserved
bound variable of a refined type, or the binder of an IR local. -/
inductive TyVariable where
  | Bound
  | Local (idx : Nat)
deriving DecidableEq

/-- Modelled from the spec: predicate expression trees over
refinement-logic terms, with exclusively owned subtrees and structural
identity only (`liquid_rust_ty::Predicate` is not in the sources).  The
constructor names `BinaryOp` and `UnaryOp` follow the uses in
`rvalue.rs`. -/
inductive Predicate where
  | Var (v : TyVariable)
  | Lit (l : Literal)
  | BinaryOp (op : BinOp) (lhs rhs : Predicate)
  | UnaryOp (op : UnOp) (arg : Predicate)
deriving DecidableEq

/-- Modelled from the spec: `eq(base, rhs)` on a predicate `lhs` produces
`BinApp(Eq(base), lhs, rhs)`, the canonical result-equals-expression
predicate; construction never fails. -/
def Predicate.eq (lhs : Predicate) (base : BaseTy) (rhs : Predicate) : Predicate :=
  .BinaryOp (.Eq base) lhs rhs

/-- Modelled from the spec: the refinement type language
(`liquid_rust_ty::Ty` is not in the sources): unrefined base types,
refined types, and dependent function types.  The refined constructor is
applied with a base type and a predicate in `rvalue.rs`; the bound
variable of the refined type is the reserved `Bound` variable. -/
inductive Ty where
  | Base (base : BaseTy)
  | Refined (base : BaseTy) (pred : Predicate)
  | Func (params : List (TyVariable × Ty)) (ret : Ty)

/-- Modelled from the spec: a type has a given base type iff its outward
base type equals it; function types never have a scalar base. -/
def Ty.has_base : Ty → BaseTy → Bool
  | .Base b, ty => b == ty
  | .Refined b _, ty => b == ty
  | .Func _ _, _ => false

mutual

/-- Modelled from the spec: recursive shape equality, comparing base-type
skeletons and ignoring predicates: base or refined types agree when their
base types match; function types agree when arity, pairwise parameter
shapes and return shapes match. -/
def Ty.shape_eq : Ty → Ty → Bool
  | .Base b1, .Base b2 => b1 == b2
  | .Base b1, .Refined b2 _ => b1 == b2
  | .Refined b1 _, .Base b2 => b1 == b2
  | .Refined b1 _, .Refined b2 _ => b1 == b2
  | .Func ps1 r1, .Func ps2 r2 => Ty.shape_eq_params ps1 ps2 && Ty.shape_eq r1 r2
  | _, _ => false

/-- Pairwise shape equality of the parameter lists of two function types,
ignoring the parameter binders. -/
def Ty.shape_eq_params : List (TyVariable × Ty) → List (TyVariable × Ty) → Bool
  | [], [] => true
  | (_, t1) :: ps1, (_, t2) :: ps2 => Ty.shape_eq t1 t2 && Ty.shape_eq_params ps1 ps2
  | _, _ => false

end

/-- Modelled from the spec: an IR operand is either a literal or a
reference to a previously typed local (`liquid_rust_mir::Operand` is not
in the sources). -/
inductive Operand where
  | Lit (l : Literal)
  | Local (idx : Nat)
deriving DecidableEq

/-- Modelled from the spec: an IR rvalue is an operand use, a unary
application, or a binary application (`liquid_rust_mir::Rvalue` is not in
the sources). -/
inductive Rvalue where
  | Use (op : Operand)
  | UnApp (un_op : UnOp) (op : Operand)
  | BinApp (bin_op : BinOp) (op1 op2 : Operand)

/-- Modelled from the spec: the environment maps IR locals to their
currently known types; the innermost binding wins under shadowing. -/
structure Env where
  binds : List (Nat × Ty)

/-- First binding of a local in a list of bindings, innermost first. -/
def lookupLocal : List (Nat × Ty) → Nat → Option Ty
  | [], _ => none
  | (y, t) :: rest, x => if y = x then some t else lookupLocal rest x

/-- The type currently bound to a local in the environment, if any. -/
def Env.lookup (env : Env) (x : Nat) : Option Ty :=
  lookupLocal env.binds x

/-- Modelled from the spec: `resolve_operand` maps a literal operand to
`Predicate::Lit` and a local-reference operand to `Predicate::Var` naming
the binder of that local; an unbound local is an internal invariant
violation, so no predicate is produced for it. -/
def Env.resolve_operand (env : Env) : Operand → Option Predicate
  | .Lit l => some (.Lit l)
  | .Local x =>
    match env.lookup x with
    | some _ => some (.Var (.Local x))
    | none => none

/-- The predicate term an operand resolves to whenever resolution
succeeds: `Lit` for a literal operand, `Var` for a local reference. -/
def Operand.term : Operand → Predicate
  | .Lit l => .Lit l
  | .Local x => .Var (.Local x)

/-- The two user-facing error kinds constructed by the rvalue synthesis
rule: a base mismatch carries the expected base type and the found full
type; a shape mismatch carries the two full operand types. -/
inductive TyErrorKind where
  | BaseMismatch (expected : BaseTy) (found : Ty)
  | ShapeMismatch (expected : Ty) (found : Ty)

/-- A typed error with span metadata.  The rvalue impl instantiates the
span type parameter of the checker at the unit type and builds every
error with the empty span value, as in the source. -/
structure TyError where
  kind : TyErrorKind
  span : Unit

/-- Result of a synthesis rule: a value, a user-facing typed error, or an
internal fatal invariant violation, which models a Rust panic such as the
`unreachable` arm for `And`/`Or` or an unbound local. -/
inductive TyResult (α : Type) where
  | ok (val : α)
  | err (e : TyError)
  | fatal

/-- Modelled from the spec: synthesis for a bare operand.  A literal gets
the singleton refined type at its own base type; a local-reference gets
the type bound to it in the environment; an unbound local is an internal
fatal error. -/
def Operand.synth (env : Env) : Operand → TyResult Ty
  | .Lit l => .ok (.Refined l.baseTy ((Predicate.Var .Bound).eq l.baseTy (.Lit l)))
  | .Local x =>
    match env.lookup x with
    | some t => .ok t
    | none => .fatal

/-- The unary operator signature table of the `UnApp` arm of the rvalue
rule: `Neg(sign,size)` maps `Int(sign,size)` to itself and `Not` maps
`Bool` to `Bool`. -/
def unOpSig : UnOp → BaseTy × BaseTy
  | .Neg sign size => (.Int sign size, .Int sign size)
  | .Not => (.Bool, .Bool)

/-- The binary operator signature table of the `BinApp` arm of the rvalue
rule; `And` and `Or` have no signature, since the source reaches an
`unreachable` panic on them. -/
def binOpSig : BinOp → Option (BaseTy × BaseTy)
  | .Add sign size => some (.Int sign size, .Int sign size)
  | .Sub sign size => some (.Int sign size, .Int sign size)
  | .Mul sign size => some (.Int sign size, .Int sign size)
  | .Div sign size => some (.Int sign size, .Int sign size)
  | .Rem sign size => some (.Int sign size, .Int sign size)
  | .And => none
  | .Or => none
  | .Eq ty => some (ty, .Bool)
  | .Neq ty => some (ty, .Bool)
  | .Lt sign size => some (.Int sign size, .Bool)
  | .Gt sign size => some (.Int sign size, .Bool)
  | .Lte sign size => some (.Int sign size, .Bool)
  | .Gte sign size => some (.Int sign size, .Bool)

/-- The comparison operator tags, ordering and equality, whose result
base type is `Bool` in the signature table. -/
def isCompareOp : BinOp → Bool
  | .Eq _ => true
  | .Neq _ => true
  | .Lt _ _ => true
  | .Gt _ _ => true
  | .Lte _ _ => true
  | .Gte _ _ => true
  | _ => false

/-- The rvalue synthesis rule, translated from
`src/liquid-rust-tycheck/src/synth/rvalue.rs`.  A `Use` delegates to the
operand rule.  A `UnApp` looks up the unary signature, synthesizes the
operand, checks `has_base` against the required operand base (failing
with `BaseMismatch`), resolves the operand and returns the refined type
whose predicate equates the bound variable with the applied operator.  A
`BinApp` first matches the operator tag (panicking on `And`/`Or`), then
synthesizes both operands, checks `shape_eq` (failing with
`ShapeMismatch` of the left and right types), checks `has_base` on the
left type (failing with `BaseMismatch`), resolves both operands and
returns the refined result type. -/
def Rvalue.synth (rv : Rvalue) (env : Env) : TyResult Ty :=
  match rv with
  | .Use operand => operand.synth env
  | .UnApp un_op op =>
    let param_ty := (unOpSig un_op).1
    let ret_ty := (unOpSig un_op).2
    match op.synth env with
    | .err e => .err e
    | .fatal => .fatal
    | .ok op_ty1 =>
      if !op_ty1.has_base param_ty then
        .err { kind := .BaseMismatch param_ty op_ty1, span := () }
      else
        match env.resolve_operand op with
        | none => .fatal
        | some p =>
          .ok (.Refined ret_ty ((Predicate.Var .Bound).eq ret_ty (.UnaryOp un_op p)))
  | .BinApp bin_op op1 op2 =>
    match binOpSig bin_op with
    | none => .fatal
    | some (op_ty, ret_ty) =>
      match op1.synth env with
      | .err e => .err e
      | .fatal => .fatal
      | .ok op_ty1 =>
        match op2.synth env with
        | .err e => .err e
        | .fatal => .fatal
        | .ok op_ty2 =>
          if !op_ty1.shape_eq op_ty2 then
            .err { kind := .ShapeMismatch op_ty1 op_ty2, span := () }
          else if !op_ty1.has_base op_ty then
            .err { kind := .BaseMismatch op_ty op_ty1, span := () }
          else
            match env.resolve_operand op1, env.resolve_operand op2 with
            | some p1, some p2 =>
              .ok (.Refined ret_ty ((Predicate.Var .Bound).eq ret_ty (.BinaryOp bin_op p1 p2)))
            | _, _ => .fatal

/-- The annotation-AST variable of `src/liquid-rust-parser/src/ast.rs`: a
source-text name together with a source span given as a half-open range
of byte offsets.  Equality and hashing are derived over all fields, as in
the source, where the struct derives `PartialEq`, `Eq` and `Hash` over
the name slice and the `Range` alike. -/
structure AstVariable where
  name : String
  span_start : Nat
  span_end : Nat
deriving DecidableEq

theorem resolve_operand_of_synth_ok (env : Env) (o : Operand) (t : Ty)
    (h : Operand.synth env o = .ok t) :
    env.resolve_operand o = some o.term := by
  cases o with
  | Lit l => rfl
  | Local x =>
    simp only [Operand.synth] at h
    simp only [Env.resolve_operand, Operand.term]
    cases hl : env.lookup x with
    | some t1 => rfl
    | none => rw [hl] at h; exact TyResult.noConfusion h

theorem resolve_operand_term (env : Env) (o : Operand) (p : Predicate)
    (h : env.resolve_operand o = some p) : p = o.term := by
  cases o with
  | Lit l =>
    simp only [Env.resolve_operand, Operand.term, Option.some.injEq] at h ⊢
    exact h.symm
  | Local x =>
    simp only [Env.resolve_operand, Operand.term] at h ⊢
    cases hl : env.lookup x with
    | some t1 => rw [hl] at h; exact (Option.some.injEq _ _ ▸ h).symm
    | none => rw [hl] at h; exact Option.noConfusion h

theorem Operand.synth_congr (env1 env2 : Env)
    (h : ∀ x, env1.lookup x = env2.lookup x) (o : Operand) :
    Operand.synth env1 o = Operand.synth env2 o := by
  cases o with
  | Lit l => rfl
  | Local x => simp only [Operand.synth, h x]

theorem Env.resolve_operand_congr (env1 env2 : Env)
    (h : ∀ x, env1.lookup x = env2.lookup x) (o : Operand) :
    env1.resolve_operand o = env2.resolve_operand o := by
  cases o with
  | Lit l => rfl
  | Local x => simp only [Env.resolve_operand, h x]

/-- Claim C1: for every binary rvalue application of an arithmetic
`Add(sign,size)` whose two operands synthesize to shape-equal types with
outward base type `Int(sign,size)`, synthesis succeeds and returns
`Refined(Int(sign,size), Var(Bound) == left_term + right_term)`, where
the operand terms are the resolved operand predicates. -/
theorem binApp_add_synthesizes (sign : Sign) (size : IntSize) (env : Env)
    (o1 o2 : Operand) (t1 t2 : Ty)
    (h1 : Operand.synth env o1 = .ok t1)
    (h2 : Operand.synth env o2 = .ok t2)
    (hs : t1.shape_eq t2 = true)
    (hb1 : t1.has_base (.Int sign size) = true)
    (_hb2 : t2.has_base (.Int sign size) = true) :
    Rvalue.synth (.BinApp (.Add sign size) o1 o2) env
      = .ok (.Refined (.Int sign size)
          (.BinaryOp (.Eq (.Int sign size)) (.Var .Bound)
            (.BinaryOp (.Add sign size) o1.term o2.term))) := by
  have r1 := resolve_operand_of_synth_ok env o1 t1 h1
  have r2 := resolve_operand_of_synth_ok env o2 t2 h2
  simp [Rvalue.synth, binOpSig, h1, h2, hs, hb1, r1, r2, Predicate.eq]

/-- Witness for C1: adding the literals 1 and 2 at `Int(signed,32)`. -/
theorem binApp_add_synthesizes_witness :
    Rvalue.synth
        (.BinApp (.Add .Signed .S32)
          (.Lit (.int 1 .Signed .S32)) (.Lit (.int 2 .Signed .S32))) ⟨[]⟩
      = .ok (.Refined (.Int .Signed .S32)
          (.BinaryOp (.Eq (.Int .Signed .S32)) (.Var .Bound)
            (.BinaryOp (.Add .Signed .S32)
              (.Lit (.int 1 .Signed .S32)) (.Lit (.int 2 .Signed .S32))))) :=
  binApp_add_synthesizes .Signed .S32 ⟨[]⟩ _ _ _ _ rfl rfl rfl rfl rfl

/-- Claim C2: a unary `Neg(sign,size)` applied to an operand whose
synthesized type has base `Int(sign,size)` returns the refined type whose
predicate equates the bound variable with the negated operand term. -/
theorem unApp_neg_synthesizes (sign : Sign) (size : IntSize) (env : Env)
    (o : Operand) (t : Ty)
    (h : Operand.synth env o = .ok t)
    (hb : t.has_base (.Int sign size) = true) :
    Rvalue.synth (.UnApp (.Neg sign size) o) env
      = .ok (.Refined (.Int sign size)
          (.BinaryOp (.Eq (.Int sign size)) (.Var .Bound)
            (.UnaryOp (.Neg sign size) o.term))) := by
  have r := resolve_operand_of_synth_ok env o t h
  simp [Rvalue.synth, unOpSig, h, hb, r, Predicate.eq]

/-- Witness for C2: negating the literal 5 at `Int(signed,32)` yields the
refined type whose predicate is structurally
`BinApp(Eq(Int(signed,32)), Var(Bound), UnApp(Neg(signed,32), Lit(5)))`. -/
theorem unApp_neg_synthesizes_witness :
    Rvalue.synth (.UnApp (.Neg .Signed .S32) (.Lit (.int 5 .Signed .S32))) ⟨[]⟩
      = .ok (.Refined (.Int .Signed .S32)
          (.BinaryOp (.Eq (.Int .Signed .S32)) (.Var .Bound)
            (.UnaryOp (.Neg .Signed .S32) (.Lit (.int 5 .Signed .S32))))) :=
  unApp_neg_synthesizes .Signed .S32 ⟨[]⟩ _ _ rfl rfl

/-- Counterexample for C3: the binary rvalue `BinApp(And, true, 0i32)` has
operands that synthesize to types that are not shape-equal, yet synthesis
does not fail with `ShapeMismatch` of those two types: the operator tag is
matched first and `And` reaches the fatal `unreachable` arm before the
operands are even synthesized. -/
theorem binApp_shape_mismatch_cex :
    Operand.synth ⟨[]⟩ (.Lit (.bool true))
        = .ok (.Refined .Bool
            (.BinaryOp (.Eq .Bool) (.Var .Bound) (.Lit (.bool true))))
  ∧ Operand.synth ⟨[]⟩ (.Lit (.int 0 .Signed .S32))
        = .ok (.Refined (.Int .Signed .S32)
            (.BinaryOp (.Eq (.Int .Signed .S32)) (.Var .Bound)
              (.Lit (.int 0 .Signed .S32))))
  ∧ Ty.shape_eq
        (.Refined .Bool (.BinaryOp (.Eq .Bool) (.Var .Bound) (.Lit (.bool true))))
        (.Refined (.Int .Signed .S32)
          (.BinaryOp (.Eq (.Int .Signed .S32)) (.Var .Bound)
            (.Lit (.int 0 .Signed .S32)))) = false
  ∧ Rvalue.synth
        (.BinApp .And (.Lit (.bool true)) (.Lit (.int 0 .Signed .S32))) ⟨[]⟩
      = .fatal
  ∧ (TyResult.fatal : TyResult Ty)
      ≠ .err ⟨.ShapeMismatch
          (.Refined .Bool (.BinaryOp (.Eq .Bool) (.Var .Bound) (.Lit (.bool true))))
          (.Refined (.Int .Signed .S32)
            (.BinaryOp (.Eq (.Int .Signed .S32)) (.Var .Bound)
              (.Lit (.int 0 .Signed .S32)))), ()⟩ := by
  refine ⟨rfl, rfl, rfl, rfl, fun h => TyResult.noConfusion h⟩

/-- Claim C3 as amended: for every binary rvalue application whose
operator tag is not `And` or `Or` and whose two operands synthesize to
types that are not shape-equal, synthesis fails with `ShapeMismatch`
whose expected field is the left operand type and whose found field is
the right operand type; the failure holds with no assumption on the base
types, so it occurs before any `has_base` check. -/
theorem binApp_shape_mismatch (bin_op : BinOp) (env : Env)
    (o1 o2 : Operand) (t1 t2 : Ty)
    (hA : bin_op ≠ .And) (hO : bin_op ≠ .Or)
    (h1 : Operand.synth env o1 = .ok t1)
    (h2 : Operand.synth env o2 = .ok t2)
    (hs : t1.shape_eq t2 = false) :
    Rvalue.synth (.BinApp bin_op o1 o2) env
      = .err { kind := .ShapeMismatch t1 t2, span := () } := by
  cases bin_op <;>
    first
      | exact absurd rfl hA
      | exact absurd rfl hO
      | simp [Rvalue.synth, binOpSig, h1, h2, hs]

/-- Witness for the amended C3: adding a boolean literal to an integer
literal fails with a shape mismatch of the two operand types. -/
theorem binApp_shape_mismatch_witness :
    Rvalue.synth
        (.BinApp (.Add .Signed .S32)
          (.Lit (.bool true)) (.Lit (.int 0 .Signed .S32))) ⟨[]⟩
      = .err ⟨.ShapeMismatch
          (.Refined .Bool (.BinaryOp (.Eq .Bool) (.Var .Bound) (.Lit (.bool true))))
          (.Refined (.Int .Signed .S32)
            (.BinaryOp (.Eq (.Int .Signed .S32)) (.Var .Bound)
              (.Lit (.int 0 .Signed .S32)))), ()⟩ :=
  binApp_shape_mismatch (.Add .Signed .S32) ⟨[]⟩ _ _ _ _
    (by intro h; exact BinOp.noConfusion h)
    (by intro h; exact BinOp.noConfusion h) rfl rfl rfl

/-- Claim C4: a unary application whose operand type lacks the required
operand base type, or a binary application whose operand types pass the
shape check but whose left operand type lacks the required operand base
type, fails with `BaseMismatch` carrying the expected base type and the
found full synthesized type. -/
theorem synth_base_mismatch :
    (∀ (un_op : UnOp) (env : Env) (o : Operand) (t : Ty),
        Operand.synth env o = .ok t →
        t.has_base (unOpSig un_op).1 = false →
        Rvalue.synth (.UnApp un_op o) env
          = .err { kind := .BaseMismatch (unOpSig un_op).1 t, span := () })
  ∧ (∀ (bin_op : BinOp) (op_ty ret_ty : BaseTy) (env : Env)
        (o1 o2 : Operand) (t1 t2 : Ty),
        binOpSig bin_op = some (op_ty, ret_ty) →
        Operand.synth env o1 = .ok t1 →
        Operand.synth env o2 = .ok t2 →
        t1.shape_eq t2 = true →
        t1.has_base op_ty = false →
        Rvalue.synth (.BinApp bin_op o1 o2) env
          = .err { kind := .BaseMismatch op_ty t1, span := () }) := by
  constructor
  · intro un_op env o t h hb
    simp [Rvalue.synth, h, hb]
  · intro bin_op op_ty ret_ty env o1 o2 t1 t2 hsig h1 h2 hs hb
    simp [Rvalue.synth, hsig, h1, h2, hs, hb]

/-- Witness for C4: logical negation of an integer literal fails with
`BaseMismatch(Bool, int type)`, and two boolean literals fed into an
arithmetic `Add(signed,32)` fail with `BaseMismatch(Int(signed,32), the
Bool-based type)`. -/
theorem synth_base_mismatch_witness :
    Rvalue.synth (.UnApp .Not (.Lit (.int 0 .Signed .S32))) ⟨[]⟩
      = .err ⟨.BaseMismatch .Bool
          (.Refined (.Int .Signed .S32)
            (.BinaryOp (.Eq (.Int .Signed .S32)) (.Var .Bound)
              (.Lit (.int 0 .Signed .S32)))), ()⟩
  ∧ Rvalue.synth
        (.BinApp (.Add .Signed .S32)
          (.Lit (.bool true)) (.Lit (.bool false))) ⟨[]⟩
      = .err ⟨.BaseMismatch (.Int .Signed .S32)
          (.Refined .Bool
            (.BinaryOp (.Eq .Bool) (.Var .Bound) (.Lit (.bool true)))), ()⟩ :=
  ⟨synth_base_mismatch.1 .Not ⟨[]⟩ _ _ rfl rfl,
   synth_base_mismatch.2 (.Add .Signed .S32) (.Int .Signed .S32)
     (.Int .Signed .S32) ⟨[]⟩ _ _ _ _ rfl rfl rfl rfl rfl⟩

/-- Claim C5: for every environment and every pair of operands, a binary
rvalue application whose operator tag is the logical connective `And` or
`Or` is an internal fatal invariant violation, modelling the
`unreachable` panic: it never returns a type and never returns a
user-facing typed error. -/
theorem binApp_and_or_fatal (env : Env) (o1 o2 : Operand) :
    Rvalue.synth (.BinApp .And o1 o2) env = .fatal
  ∧ Rvalue.synth (.BinApp .Or o1 o2) env = .fatal :=
  ⟨rfl, rfl⟩

/-- Counterexample for C6: two annotation-AST variables with the same
name but different source spans are not equal, because the derived
equality of the `Variable` struct compares the span field as well. -/
theorem astVariable_eq_cex :
    (AstVariable.mk "x" 0 1).name = (AstVariable.mk "x" 2 3).name
  ∧ AstVariable.mk "x" 0 1 ≠ AstVariable.mk "x" 2 3 := by
  refine ⟨rfl, fun h => ?_⟩
  exact absurd (congrArg AstVariable.span_start h) (by decide)

/-- Claim C6 as amended: two annotation-AST variables are equal iff their
names and their spans are both equal; the span participates in the
derived equality (and hashing) rather than being excluded from it. -/
theorem astVariable_eq_iff (a b : AstVariable) :
    a = b ↔ a.name = b.name ∧ a.span_start = b.span_start
      ∧ a.span_end = b.span_end := by
  cases a
  cases b
  simp [AstVariable.mk.injEq]

/-- Claim C7: a binary rvalue application of an ordering or equality
operator whose operands pass the shape and base checks synthesizes a
Bool-based refined type, whatever the operand refinement predicates are:
only the outward base types enter the hypotheses. -/
theorem binApp_compare_synthesizes_bool (bin_op : BinOp)
    (op_ty ret_ty : BaseTy) (env : Env) (o1 o2 : Operand) (t1 t2 : Ty)
    (hc : isCompareOp bin_op = true)
    (hsig : binOpSig bin_op = some (op_ty, ret_ty))
    (h1 : Operand.synth env o1 = .ok t1)
    (h2 : Operand.synth env o2 = .ok t2)
    (hs : t1.shape_eq t2 = true)
    (hb : t1.has_base op_ty = true) :
    Rvalue.synth (.BinApp bin_op o1 o2) env
      = .ok (.Refined .Bool
          (.BinaryOp (.Eq .Bool) (.Var .Bound)
            (.BinaryOp bin_op o1.term o2.term))) := by
  have r1 := resolve_operand_of_synth_ok env o1 t1 h1
  have r2 := resolve_operand_of_synth_ok env o2 t2 h2
  have hret : ret_ty = .Bool := by
    cases bin_op <;> simp_all [isCompareOp, binOpSig]
  subst hret
  simp [Rvalue.synth, hsig, h1, h2, hs, hb, r1, r2, Predicate.eq]

/-- Witness for C7: `Eq(Bool)` applied to two boolean literals yields the
Bool refined type asserting that the bound variable equals the equality
of the two operands. -/
theorem binApp_compare_synthesizes_bool_witness :
    Rvalue.synth
        (.BinApp (.Eq .Bool) (.Lit (.bool true)) (.Lit (.bool false))) ⟨[]⟩
      = .ok (.Refined .Bool
          (.BinaryOp (.Eq .Bool) (.Var .Bound)
            (.BinaryOp (.Eq .Bool)
              (.Lit (.bool true)) (.Lit (.bool false))))) :=
  binApp_compare_synthesizes_bool (.Eq .Bool) .Bool .Bool ⟨[]⟩ _ _ _ _
    rfl rfl rfl rfl rfl rfl

/-- Claim C8: every error value returned by the rvalue synthesis rule
carries the unit span, as the rule instantiates the span type at unit and
builds each error with the empty span. -/
theorem synth_error_span_unit (rv : Rvalue) (env : Env) (e : TyError)
    (_h : Rvalue.synth rv env = .err e) : e.span = () := rfl

/-- Witness for C8: the base-mismatch error produced by negating a
boolean literal with `Neg(signed,32)` carries the unit span. -/
theorem synth_error_span_unit_witness :
    (TyError.mk
        (.BaseMismatch (.Int .Signed .S32)
          (.Refined .Bool
            (.BinaryOp (.Eq .Bool) (.Var .Bound) (.Lit (.bool true))))) ()).span
      = () :=
  synth_error_span_unit
    (.UnApp (.Neg .Signed .S32) (.Lit (.bool true))) ⟨[]⟩ _ rfl

/-- Claim C9: rvalue synthesis is deterministic and effect-free over its
environment: the result depends only on the bindings visible through
environment lookup, so two invocations on the same rvalue and on
environments with identical bindings return structurally identical
results; the environment itself is immutable data in the rule. -/
theorem synth_extensional (rv : Rvalue) (env1 env2 : Env)
    (h : ∀ x, env1.lookup x = env2.lookup x) :
    Rvalue.synth rv env1 = Rvalue.synth rv env2 := by
  cases rv <;>
    simp only [Rvalue.synth, Operand.synth_congr env1 env2 h,
      Env.resolve_operand_congr env1 env2 h]

/-- Witness for C9: reading local 0 gives the same result in an
environment with one binding for it and in an environment where the same
binding is shadowed by an identical duplicate. -/
theorem synth_extensional_witness :
    Rvalue.synth (.Use (.Local 0)) ⟨[(0, .Base .Bool)]⟩
      = Rvalue.synth (.Use (.Local 0)) ⟨[(0, .Base .Bool), (0, .Base .Bool)]⟩ :=
  synth_extensional (.Use (.Local 0)) ⟨[(0, .Base .Bool)]⟩
    ⟨[(0, .Base .Bool), (0, .Base .Bool)]⟩
    (fun x => by by_cases h0 : (0 : Nat) = x <;>
      simp [Env.lookup, lookupLocal, h0])

/-- Claim C10: every successful synthesis of a unary or binary rvalue
application returns a `Refined` type, never a `Base` or function type,
whose base is the result base type of the operator signature and whose
predicate is exactly an equality at that base between the bound variable
and the operator applied to the resolved operand terms. -/
theorem synth_success_refined :
    (∀ (un_op : UnOp) (env : Env) (o : Operand) (t : Ty),
        Rvalue.synth (.UnApp un_op o) env = .ok t →
        t = .Refined (unOpSig un_op).2
          (.BinaryOp (.Eq (unOpSig un_op).2) (.Var .Bound)
            (.UnaryOp un_op o.term)))
  ∧ (∀ (bin_op : BinOp) (op_ty ret_ty : BaseTy) (env : Env)
        (o1 o2 : Operand) (t : Ty),
        binOpSig bin_op = some (op_ty, ret_ty) →
        Rvalue.synth (.BinApp bin_op o1 o2) env = .ok t →
        t = .Refined ret_ty
          (.BinaryOp (.Eq ret_ty) (.Var .Bound)
            (.BinaryOp bin_op o1.term o2.term))) := by
  constructor
  · intro un_op env o t h
    simp only [Rvalue.synth] at h
    cases hop : Operand.synth env o with
    | err e => simp [hop] at h
    | fatal => simp [hop] at h
    | ok t1 =>
      simp only [hop] at h
      cases hb : t1.has_base (unOpSig un_op).1 with
      | false => simp [hb] at h
      | true =>
        simp only [hb, Bool.not_true, Bool.false_eq_true, if_false] at h
        cases hr : (Env.resolve_operand env o) with
        | none => simp [hr] at h
        | some p =>
          simp only [hr, TyResult.ok.injEq] at h
          rw [resolve_operand_term env o p hr] at h
          exact h.symm
  · intro bin_op op_ty ret_ty env o1 o2 t hsig h
    simp only [Rvalue.synth, hsig] at h
    cases hop1 : Operand.synth env o1 with
    | err e => simp [hop1] at h
    | fatal => simp [hop1] at h
    | ok t1 =>
      simp only [hop1] at h
      cases hop2 : Operand.synth env o2 with
      | err e => simp [hop2] at h
      | fatal => simp [hop2] at h
      | ok t2 =>
        simp only [hop2] at h
        cases hs : t1.shape_eq t2 with
        | false => simp [hs] at h
        | true =>
          simp only [hs, Bool.not_true, Bool.false_eq_true, if_false] at h
          cases hb : t1.has_base op_ty with
          | false => simp [hb] at h
          | true =>
            simp only [hb, Bool.not_true, Bool.false_eq_true, if_false] at h
            cases hr1 : (Env.resolve_operand env o1) with
            | none => simp [hr1] at h
            | some p1 =>
              simp only [hr1] at h
              cases hr2 : (Env.resolve_operand env o2) with
              | none => simp [hr2] at h
              | some p2 =>
                simp only [hr2, TyResult.ok.injEq] at h
                rw [resolve_operand_term env o1 p1 hr1,
                  resolve_operand_term env o2 p2 hr2] at h
                exact h.symm

/-- Witness for C10: the successful synthesis results for negating the
literal 5 and for adding the literals 1 and 2 both have the claimed
refined shape. -/
theorem synth_success_refined_witness :
    (Ty.Refined (.Int .Signed .S32)
        (.BinaryOp (.Eq (.Int .Signed .S32)) (.Var .Bound)
          (.UnaryOp (.Neg .Signed .S32) (.Lit (.int 5 .Signed .S32))))
      = .Refined (unOpSig (.Neg .Signed .S32)).2
          (.BinaryOp (.Eq (unOpSig (.Neg .Signed .S32)).2) (.Var .Bound)
            (.UnaryOp (.Neg .Signed .S32)
              (Operand.term (.Lit (.int 5 .Signed .S32))))))
  ∧ (Ty.Refined (.Int .Signed .S32)
        (.BinaryOp (.Eq (.Int .Signed .S32)) (.Var .Bound)
          (.BinaryOp (.Add .Signed .S32)
            (.Lit (.int 1 .Signed .S32)) (.Lit (.int 2 .Signed .S32))))
      = .Refined (.Int .Signed .S32)
          (.BinaryOp (.Eq (.Int .Signed .S32)) (.Var .Bound)
            (.BinaryOp (.Add .Signed .S32)
              (Operand.term (.Lit (.int 1 .Signed .S32)))
              (Operand.term (.Lit (.int 2 .Signed .S32)))))) :=
  ⟨synth_success_refined.1 (.Neg .Signed .S32) ⟨[]⟩
     (.Lit (.int 5 .Signed .S32)) _ rfl,
   synth_success_refined.2 (.Add .Signed .S32) (.Int .Signed .S32)
     (.Int .Signed .S32) ⟨[]⟩
     (.Lit (.int 1 .Signed .S32)) (.Lit (.int 2 .Signed .S32)) _ rfl rfl⟩

end LiquidRust
